import Mathlib

/-!
Shallow embedding of the header-mapping / sheet-filling core of
`streamlit_app.py` (Target Masterfile Completer).

Scalar cell values are modelled by `Value` (Python `None`, `float('nan')`,
strings, ints — the scalars the core inspects).  A worksheet is a total
function from 1-based (row, column) pairs to values, together with a
boolean "duplicate highlight fill" map and the openpyxl `max_row` /
`max_column` dimensions.  The UI layer is out of scope; the functions
below embed `_norm_key`, `read_two_col_mapping`,
`build_header_index_first_sheet`, `_highlight_duplicates` and
`fill_first_sheet_by_headers`.  Streamlit `st.error` plus an empty
DataFrame result is modelled as `Except.error` carrying the message text;
`st.warning` lists are returned as the two warning lists.  String
operations (`lower`, `upper`, `strip`) are modelled on their ASCII
behaviour, which is what header matching exercises.
-/

namespace Masterfile

/-- A Python scalar as seen by the core: `None`, `float('nan')` (what pandas
uses for a missing cell), a string, or an integer. -/
inductive Value where
  | vNone
  | vNaN
  | vStr (s : String)
  | vInt (n : Int)
  deriving DecidableEq, Repr

/-- `pd.isna` on a scalar: true exactly for `None` and NaN. -/
def isna : Value → Bool
  | .vNone => true
  | .vNaN  => true
  | _      => false

/-- Python `str(v)` for the modelled scalars (`str(None) = "None"`,
`str(float('nan')) = "nan"`). -/
def pyStr : Value → String
  | .vNone  => "None"
  | .vNaN   => "nan"
  | .vStr s => s
  | .vInt n => toString n

/-- Python `s.strip()` on ASCII text: drop leading and trailing
whitespace characters. -/
def pyStrip (s : String) : String :=
  ⟨((s.data.dropWhile Char.isWhitespace).reverse.dropWhile
      Char.isWhitespace).reverse⟩

/-- Python `s.lower()` on ASCII text. -/
def pyLower (s : String) : String :=
  ⟨s.data.map Char.toLower⟩

/-- Python `s.upper()` on ASCII text. -/
def pyUpper (s : String) : String :=
  ⟨s.data.map Char.toUpper⟩

/-- Python `s.strip().lower()` — the loose key used for RAW column lookup
(line `raw_norm = {c.strip().lower(): c ...}`). -/
def looseKey (s : String) : String :=
  pyLower (pyStrip s)

/-- `_norm_key`: `re.sub(r"[^a-z0-9]+", "", str(s).strip().lower())` —
lowercase then drop every character that is not a lowercase ASCII letter
or digit. -/
def _norm_key (s : String) : String :=
  ⟨(pyLower (pyStrip s)).data.filter (fun c => c.isLower || c.isDigit)⟩

/-- A table row: association list from column name to value
(a pandas row Series restricted to lookups the core performs). -/
def Row := List (String × Value)

/-- `row[col]`; a lookup the code only performs for names taken from the
table's own column list, so the `vNaN` default is never semantically hit. -/
def rowGet (row : Row) (c : String) : Value :=
  match row.lookup c with
  | some v => v
  | none   => .vNaN

/-- One resolved mapping line: DataFrame columns
`['raw_header','template_header']` produced by `read_two_col_mapping`. -/
structure MappingEntry where
  raw_header : String
  template_header : String
  deriving DecidableEq, Repr

/-- Accepted aliases for the TEMPLATE (target) role column. -/
def template_aliases : List String :=
  ["Template", "Template Header", "Header of Masterfile Template", "Target", "To"]

/-- Accepted aliases for the RAW (source) role column. -/
def raw_aliases : List String :=
  ["Raw", "Raw Header", "Header of Row Sheet", "Source", "From"]

/-- `cols_norm = { _norm_key(c): c for c in m.columns }` — a Python dict
comprehension keeps the LAST column for a duplicated key, hence
`getLast?` of the matching columns. -/
def colsNormGet (cols : List String) (k : String) : Option String :=
  (cols.filter (fun c => _norm_key c == k)).getLast?

/-- `next((cols_norm[k] for k in keys if k in cols_norm), None)`:
first alias (in priority order) whose normalized key is present. -/
def findRole (cols : List String) (aliases : List String) : Option String :=
  (aliases.map _norm_key).findSome? (fun k => colsNormGet cols k)

/-- Projection step of `read_two_col_mapping`: select the two role columns,
`astype(str).str.strip()` each side, and drop rows where either side is
empty.  (pandas `astype(str)` renders a missing cell as the string
`"nan"`, which is non-empty — `pyStr` reproduces that.) -/
def projectMapping (tplCol rawCol : String) (rows : List Row) : List MappingEntry :=
  (rows.map (fun r =>
      { template_header := pyStrip (pyStr (rowGet r tplCol))
        raw_header := pyStrip (pyStr (rowGet r rawCol)) : MappingEntry })).filter
    (fun e => !(e.template_header == "") && !(e.raw_header == ""))

/-- `drop_duplicates(subset=["template_header"])`: keep the first row for
each (exact, stripped) template-header text; `seen` carries the keys
already emitted. -/
def dedupBy (seen : List String) : List MappingEntry → List MappingEntry
  | [] => []
  | e :: rest =>
    if e.template_header ∈ seen then dedupBy seen rest
    else e :: dedupBy (e.template_header :: seen) rest

/-- The fixed role-detection failure message shown by `st.error`. -/
def mappingRoleError : String :=
  "Mapping must contain two columns: (1) Template header, (2) Raw header."

/-- `read_two_col_mapping`, on an already-parsed table (`cols` = the file's
column names, `rows` = its data rows keyed by those names).  An empty
DataFrame is returned as-is (`.ok []`); a missing role column is the
`st.error` + empty-result path, modelled as `.error`. -/
def read_two_col_mapping (cols : List String) (rows : List Row) :
    Except String (List MappingEntry) :=
  if rows.isEmpty || cols.isEmpty then .ok []
  else
    match findRole cols template_aliases, findRole cols raw_aliases with
    | some tplCol, some rawCol =>
        .ok (dedupBy [] (projectMapping tplCol rawCol rows))
    | _, _ => .error mappingRoleError

/-- A worksheet: cell values and highlight fills over 1-based (row, col)
coordinates, plus the openpyxl dimensions.  `vNone` is an empty cell;
`fills p = true` means the yellow duplicate `PatternFill` is set at `p`. -/
structure Sheet where
  cells : Nat × Nat → Value
  fills : Nat × Nat → Bool
  maxRow : Nat
  maxCol : Nat

/-- `ws.cell(row=r, column=c, value=v)`: writes the value and (as in
openpyxl) extends the sheet dimensions to cover the touched cell. -/
def setCell (s : Sheet) (r c : Nat) (v : Value) : Sheet :=
  { s with
    cells := fun p => if p = (r, c) then v else s.cells p
    maxRow := max s.maxRow r
    maxCol := max s.maxCol c }

/-- A workbook: the ordered list of its sheets; `sheets.head` is
`wb.worksheets[0]`. -/
structure Workbook where
  sheets : List Sheet

/-- `build_header_index_first_sheet`: scan row 1 from column 1 to
`max_column or 1`; skip `None` cells and empty normalized keys; first
occurrence of a key wins.  Represented as an ordered association list. -/
def headerEntries (s : Sheet) : List (String × Nat) :=
  let mc := if s.maxCol = 0 then 1 else s.maxCol
  ((List.range mc).map (· + 1)).foldl
    (fun acc c =>
      match s.cells (1, c) with
      | .vNone => acc
      | v =>
        let key := _norm_key (pyStr v)
        if key = "" then acc
        else if (acc.lookup key).isSome then acc
        else acc ++ [(key, c)])
    []

/-- `header_map.get(key)` on the header index. -/
def hdrGet (h : List (String × Nat)) (k : String) : Option Nat :=
  h.lookup k

/-- The raw data table: column names plus rows keyed by those names. -/
structure RawTable where
  cols : List String
  rows : List Row

/-- `raw_norm = {c.strip().lower(): c for c in raw_df.columns}` followed by
`raw_norm.get(k)`; a dict comprehension keeps the LAST column per key. -/
def rawNormGet (cols : List String) (k : String) : Option String :=
  (cols.filter (fun c => looseKey c == k)).getLast?

/-- The pair-building loop of `fill_first_sheet_by_headers`: per mapping
entry, resolve the source against the raw columns (loose key) and the
target against the header index (`_norm_key`); a missing source goes to
`missing_raw` and skips the entry BEFORE the target is examined; a missing
target goes to `missing_tpl`; otherwise the (rawColumnName, templateColumn)
pair is kept.  Returns (pairs, missing_raw, missing_tpl) in file order. -/
def resolvePairs (hidx : List (String × Nat)) (rawCols : List String) :
    List MappingEntry → List (String × Nat) × List String × List String
  | [] => ([], [], [])
  | e :: rest =>
    let r := resolvePairs hidx rawCols rest
    match rawNormGet rawCols (looseKey e.raw_header),
          hdrGet hidx (_norm_key e.template_header) with
    | none, _ => (r.1, e.raw_header :: r.2.1, r.2.2)
    | some _, none => (r.1, r.2.1, e.template_header :: r.2.2)
    | some rc, some ci => ((rc, ci) :: r.1, r.2.1, r.2.2)

/-- `("" if pd.isna(val) else val)`. -/
def writeVal (v : Value) : Value :=
  if isna v then .vStr "" else v

/-- The inner write loop: for one raw row, write every active pair's value
into row `r`. -/
def writeRowCells (s : Sheet) (r : Nat) (row : Row) :
    List (String × Nat) → Sheet
  | [] => s
  | q :: rest =>
    writeRowCells (setCell s r q.2 (writeVal (rowGet row q.1))) r row rest

/-- The outer write loop: `for i, (_, raw_row) in enumerate(raw_df.iterrows())`
with `out_row = start_row + i` and `start_row = 3`; `i` is the enumeration
offset already consumed. -/
def writeRows (s : Sheet) (pairs : List (String × Nat)) (i : Nat) :
    List Row → Sheet
  | [] => s
  | row :: rest => writeRows (writeRowCells s (3 + i) row pairs) pairs (i + 1) rest

/-- The duplicate key of a cell value: `None` cells and values whose
stripped string form is empty are ignored; otherwise the stripped,
uppercased rendering (`str(v).strip().upper()`). -/
def cellKey (v : Value) : Option String :=
  match v with
  | .vNone => none
  | v =>
    let s := pyStrip (pyStr v)
    if s = "" then none else some (pyUpper s)

/-- `max_row = ws.max_row or start_row`. -/
def effMaxRow (s : Sheet) (sr : Nat) : Nat :=
  if s.maxRow = 0 then sr else s.maxRow

/-- The duplicate keys present in column `col`, rows `sr .. mr`, in row
order (the multiset behind the `counts` dict). -/
def colKeys (s : Sheet) (col sr mr : Nat) : List String :=
  ((List.range (mr + 1 - sr)).map (· + sr)).filterMap
    (fun r => cellKey (s.cells (r, col)))

/-- The cells the second scan marks in column `col`: those in range whose
key occurs more than once in the column's key multiset. -/
def colMarks (s : Sheet) (col sr mr : Nat) : List (Nat × Nat) :=
  ((List.range (mr + 1 - sr)).map (· + sr)).filterMap
    (fun r =>
      match cellKey (s.cells (r, col)) with
      | none => none
      | some k => if 1 < (colKeys s col sr mr).count k then some (r, col) else none)

/-- Set the duplicate fill on every cell of `ms` (values untouched). -/
def applyFills (s : Sheet) (ms : List (Nat × Nat)) : Sheet :=
  { s with fills := fun p => decide (p ∈ ms) || s.fills p }

/-- One iteration of the `for hdr in header_labels` loop of
`_highlight_duplicates`: resolve the label through the header map
(`if not col_idx: continue` — skips both a missing and a zero column),
then mark that column's duplicate cells. -/
def highlightStep (s : Sheet) (hidx : List (String × Nat)) (sr : Nat)
    (lbl : String) : Sheet :=
  match hdrGet hidx (_norm_key lbl) with
  | none => s
  | some col =>
    if col = 0 then s
    else applyFills s (colMarks s col sr (effMaxRow s sr))

/-- `_highlight_duplicates(ws, header_map, header_labels, start_row)`. -/
def _highlight_duplicates (s : Sheet) (hidx : List (String × Nat)) (sr : Nat) :
    List String → Sheet
  | [] => s
  | lbl :: rest => _highlight_duplicates (highlightStep s hidx sr lbl) hidx sr rest

/-- The cells one `highlightStep` marks (empty when the label is skipped). -/
def stepMarks (s : Sheet) (hidx : List (String × Nat)) (sr : Nat)
    (lbl : String) : List (Nat × Nat) :=
  match hdrGet hidx (_norm_key lbl) with
  | none => []
  | some col =>
    if col = 0 then [] else colMarks s col sr (effMaxRow s sr)

/-- The set (list) of cells one run of `_highlight_duplicates` marks, label
by label, computed against a fixed sheet state. -/
def marksOf (s : Sheet) (hidx : List (String × Nat)) (sr : Nat) :
    List String → List (Nat × Nat)
  | [] => []
  | lbl :: rest => stepMarks s hidx sr lbl ++ marksOf s hidx sr rest

/-- The fixed highlight labels of `fill_first_sheet_by_headers`. -/
def highlightLabels : List String := ["Partner SKU", "Barcode"]

/-- The first-sheet transformation of `fill_first_sheet_by_headers` after
the header index was found non-empty: write all rows from row 3, then
highlight duplicates in the two identifier columns. -/
def fillSheet (ws : Sheet) (mapping : List MappingEntry) (raw : RawTable) : Sheet :=
  let hidx := headerEntries ws
  let pr := resolvePairs hidx raw.cols mapping
  _highlight_duplicates (writeRows ws pr.1 0 raw.rows) hidx 3 highlightLabels

/-- The fatal header error raised by `fill_first_sheet_by_headers`. -/
def noHeadersError : String :=
  "No headers found in row 1 of the first sheet. Please ensure row 1 contains headers."

/-- `fill_first_sheet_by_headers` on an already-loaded workbook: operate on
`worksheets[0]` only, raise if the header index is empty, otherwise write
and highlight, returning the workbook plus the `missing_raw` and
`missing_tpl` warning lists.  (The `keep_vba` container choice and the
byte-level load/save are outside the cell model.) -/
def fill (wb : Workbook) (mapping : List MappingEntry) (raw : RawTable) :
    Except String (Workbook × List String × List String) :=
  match wb.sheets with
  | [] => .error "worksheet index out of range"
  | ws :: rest =>
    if (headerEntries ws).isEmpty then .error noHeadersError
    else
      let pr := resolvePairs (headerEntries ws) raw.cols mapping
      .ok (⟨fillSheet ws mapping raw :: rest⟩, pr.2.1, pr.2.2)

/-- The `missing_tpl` warning list of a fill, `none` when the fill raised. -/
def fillMissingTpl (wb : Workbook) (mapping : List MappingEntry) (raw : RawTable) :
    Option (List String) :=
  match fill wb mapping raw with
  | .ok (_, _, mtpl) => some mtpl
  | .error _ => none

/-- The `missing_raw` warning list of a fill, `none` when the fill raised. -/
def fillMissingRaw (wb : Workbook) (mapping : List MappingEntry) (raw : RawTable) :
    Option (List String) :=
  match fill wb mapping raw with
  | .ok (_, mraw, _) => some mraw
  | .error _ => none

/-! ## Frame lemmas for the write loops -/

theorem setCell_cells (s : Sheet) (r c : Nat) (v : Value) (p : Nat × Nat) :
    (setCell s r c v).cells p = if p = (r, c) then v else s.cells p := rfl

theorem setCell_fills (s : Sheet) (r c : Nat) (v : Value) :
    (setCell s r c v).fills = s.fills := rfl

theorem writeRowCells_fills (pairs : List (String × Nat)) :
    ∀ (s : Sheet) (r : Nat) (row : Row),
      (writeRowCells s r row pairs).fills = s.fills := by
  induction pairs with
  | nil => intro s r row; rfl
  | cons q rest ih =>
    intro s r row
    simp [writeRowCells, ih, setCell_fills]

theorem writeRowCells_cells_ne_row (pairs : List (String × Nat)) :
    ∀ (s : Sheet) (r : Nat) (row : Row) (p : Nat × Nat), p.1 ≠ r →
      (writeRowCells s r row pairs).cells p = s.cells p := by
  induction pairs with
  | nil => intro s r row p _; rfl
  | cons q rest ih =>
    intro s r row p hp
    rw [writeRowCells, ih _ _ _ _ hp, setCell_cells]
    have : p ≠ (r, q.2) := by
      intro h; exact hp (by rw [h])
    simp [this]

theorem writeRowCells_cells_notcol (pairs : List (String × Nat)) :
    ∀ (s : Sheet) (r : Nat) (row : Row) (p : Nat × Nat),
      p.2 ∉ pairs.map Prod.snd →
      (writeRowCells s r row pairs).cells p = s.cells p := by
  induction pairs with
  | nil => intro s r row p _; rfl
  | cons q rest ih =>
    intro s r row p hp
    rw [List.map_cons] at hp
    simp only [List.mem_cons, not_or] at hp
    obtain ⟨h1, h2⟩ := hp
    rw [writeRowCells, ih _ _ _ _ h2, setCell_cells]
    have : p ≠ (r, q.2) := by
      intro h; exact h1 (by rw [h])
    simp [this]

theorem writeRowCells_cells_mem (pairs : List (String × Nat)) :
    ∀ (s : Sheet) (r : Nat) (row : Row) (rc : String) (ci : Nat),
      (pairs.map Prod.snd).Nodup → (rc, ci) ∈ pairs →
      (writeRowCells s r row pairs).cells (r, ci) = writeVal (rowGet row rc) := by
  induction pairs with
  | nil => intro s r row rc ci _ hm; exact absurd hm (List.not_mem_nil _)
  | cons q rest ih =>
    intro s r row rc ci hnd hm
    rw [List.map_cons, List.nodup_cons] at hnd
    obtain ⟨hq, hrest⟩ := hnd
    rcases List.mem_cons.mp hm with heq | hmem
    · subst heq
      rw [writeRowCells]
      rw [writeRowCells_cells_notcol rest _ _ _ _ (by simpa using hq)]
      simp [setCell_cells]
    · rw [writeRowCells]
      exact ih _ _ _ _ _ hrest hmem

theorem writeRows_fills (rows : List Row) :
    ∀ (s : Sheet) (pairs : List (String × Nat)) (i : Nat),
      (writeRows s pairs i rows).fills = s.fills := by
  induction rows with
  | nil => intro s pairs i; rfl
  | cons row rest ih =>
    intro s pairs i
    rw [writeRows, ih, writeRowCells_fills]

theorem writeRows_cells_lt (rows : List Row) :
    ∀ (s : Sheet) (pairs : List (String × Nat)) (i : Nat) (p : Nat × Nat),
      p.1 < 3 + i → (writeRows s pairs i rows).cells p = s.cells p := by
  induction rows with
  | nil => intro s pairs i p _; rfl
  | cons row rest ih =>
    intro s pairs i p hp
    rw [writeRows, ih _ _ _ _ (by omega),
      writeRowCells_cells_ne_row _ _ _ _ _ (by omega)]

theorem writeRows_cells_ge (rows : List Row) :
    ∀ (s : Sheet) (pairs : List (String × Nat)) (i : Nat) (p : Nat × Nat),
      3 + i + rows.length ≤ p.1 →
      (writeRows s pairs i rows).cells p = s.cells p := by
  induction rows with
  | nil => intro s pairs i p _; rfl
  | cons row rest ih =>
    intro s pairs i p hp
    rw [List.length_cons] at hp
    rw [writeRows, ih _ _ _ _ (by omega),
      writeRowCells_cells_ne_row _ _ _ _ _ (by omega)]

theorem writeRows_cells_notcol (rows : List Row) :
    ∀ (s : Sheet) (pairs : List (String × Nat)) (i : Nat) (p : Nat × Nat),
      p.2 ∉ pairs.map Prod.snd →
      (writeRows s pairs i rows).cells p = s.cells p := by
  induction rows with
  | nil => intro s pairs i p _; rfl
  | cons row rest ih =>
    intro s pairs i p hp
    rw [writeRows, ih _ _ _ _ hp, writeRowCells_cells_notcol _ _ _ _ _ hp]

theorem writeRows_cells_get (rows : List Row) :
    ∀ (s : Sheet) (pairs : List (String × Nat)) (i j : Nat) (hj : j < rows.length)
      (rc : String) (ci : Nat),
      (pairs.map Prod.snd).Nodup → (rc, ci) ∈ pairs →
      (writeRows s pairs i rows).cells (3 + i + j, ci)
        = writeVal (rowGet (rows.get ⟨j, hj⟩) rc) := by
  induction rows with
  | nil => intro s pairs i j hj; exact absurd hj (by simp)
  | cons row rest ih =>
    intro s pairs i j hj rc ci hnd hm
    cases j with
    | zero =>
      rw [writeRows]
      rw [writeRows_cells_lt rest _ _ _ _ (by simp)]
      simpa using writeRowCells_cells_mem pairs s (3 + i) row rc ci hnd hm
    | succ j' =>
      rw [writeRows]
      have hj' : j' < rest.length := by
        rw [List.length_cons] at hj; omega
      have := ih (writeRowCells s (3 + i) row pairs) pairs (i + 1) j' hj' rc ci hnd hm
      have harith : 3 + i + (j' + 1) = 3 + (i + 1) + j' := by omega
      rw [harith, this]
      rfl

/-! ## Lemmas for the duplicate highlighter -/

theorem applyFills_cells (s : Sheet) (ms : List (Nat × Nat)) :
    (applyFills s ms).cells = s.cells := rfl

theorem applyFills_maxRow (s : Sheet) (ms : List (Nat × Nat)) :
    (applyFills s ms).maxRow = s.maxRow := rfl

theorem highlightStep_cells (s : Sheet) (hidx : List (String × Nat)) (sr : Nat)
    (lbl : String) : (highlightStep s hidx sr lbl).cells = s.cells := by
  unfold highlightStep
  cases hdrGet hidx (_norm_key lbl) with
  | none => rfl
  | some col =>
    by_cases h : col = 0 <;> simp [h, applyFills_cells]

theorem highlightStep_maxRow (s : Sheet) (hidx : List (String × Nat)) (sr : Nat)
    (lbl : String) : (highlightStep s hidx sr lbl).maxRow = s.maxRow := by
  unfold highlightStep
  cases hdrGet hidx (_norm_key lbl) with
  | none => rfl
  | some col =>
    by_cases h : col = 0 <;> simp [h, applyFills_maxRow]

theorem highlightStep_fills (s : Sheet) (hidx : List (String × Nat)) (sr : Nat)
    (lbl : String) (p : Nat × Nat) :
    (highlightStep s hidx sr lbl).fills p
      = (decide (p ∈ stepMarks s hidx sr lbl) || s.fills p) := by
  unfold highlightStep stepMarks
  cases hdrGet hidx (_norm_key lbl) with
  | none => simp
  | some col =>
    by_cases h : col = 0 <;> simp [h, applyFills]

theorem marksOf_congr (labels : List String) :
    ∀ (s t : Sheet) (hidx : List (String × Nat)) (sr : Nat),
      s.cells = t.cells → s.maxRow = t.maxRow →
      marksOf s hidx sr labels = marksOf t hidx sr labels := by
  induction labels with
  | nil => intro s t hidx sr _ _; rfl
  | cons lbl rest ih =>
    intro s t hidx sr hc hm
    rw [marksOf, marksOf, ih s t hidx sr hc hm]
    congr 1
    unfold stepMarks colMarks colKeys effMaxRow
    rw [hc, hm]

theorem highlight_cells (labels : List String) :
    ∀ (s : Sheet) (hidx : List (String × Nat)) (sr : Nat),
      (_highlight_duplicates s hidx sr labels).cells = s.cells := by
  induction labels with
  | nil => intro s hidx sr; rfl
  | cons lbl rest ih =>
    intro s hidx sr
    rw [_highlight_duplicates, ih, highlightStep_cells]

theorem highlight_maxRow (labels : List String) :
    ∀ (s : Sheet) (hidx : List (String × Nat)) (sr : Nat),
      (_highlight_duplicates s hidx sr labels).maxRow = s.maxRow := by
  induction labels with
  | nil => intro s hidx sr; rfl
  | cons lbl rest ih =>
    intro s hidx sr
    rw [_highlight_duplicates, ih, highlightStep_maxRow]

theorem highlight_fills (labels : List String) :
    ∀ (s : Sheet) (hidx : List (String × Nat)) (sr : Nat) (p : Nat × Nat),
      (_highlight_duplicates s hidx sr labels).fills p
        = (decide (p ∈ marksOf s hidx sr labels) || s.fills p) := by
  induction labels with
  | nil => intro s hidx sr p; simp [_highlight_duplicates, marksOf]
  | cons lbl rest ih =>
    intro s hidx sr p
    rw [_highlight_duplicates, ih]
    rw [marksOf_congr rest (highlightStep s hidx sr lbl) s hidx sr
        (highlightStep_cells s hidx sr lbl) (highlightStep_maxRow s hidx sr lbl)]
    rw [highlightStep_fills]
    rw [marksOf]
    by_cases h1 : p ∈ stepMarks s hidx sr lbl <;>
      by_cases h2 : p ∈ marksOf s hidx sr rest <;>
      simp [h1, h2, List.mem_append]

theorem mem_colMarks {s : Sheet} {col sr mr r c : Nat} :
    (r, c) ∈ colMarks s col sr mr ↔
      c = col ∧ sr ≤ r ∧ r ≤ mr ∧
      ∃ k, cellKey (s.cells (r, col)) = some k ∧
        1 < (colKeys s col sr mr).count k := by
  unfold colMarks
  rw [List.mem_filterMap]
  constructor
  · rintro ⟨a, ha, hfa⟩
    rw [List.mem_map] at ha
    obtain ⟨j, hj, rfl⟩ := ha
    rw [List.mem_range] at hj
    rcases hk : cellKey (s.cells (j + sr, col)) with _ | k
    · rw [hk] at hfa; exact absurd hfa (by simp)
    · rw [hk] at hfa
      dsimp only at hfa
      by_cases hcnt : 1 < (colKeys s col sr mr).count k
      · rw [if_pos hcnt] at hfa
        have hp : (j + sr, col) = (r, c) := Option.some.inj hfa
        cases hp
        exact ⟨rfl, by omega, by omega, k, hk, hcnt⟩
      · rw [if_neg hcnt] at hfa; exact absurd hfa (by simp)
  · rintro ⟨rfl, hsr, hmr, k, hk, hcnt⟩
    refine ⟨r, ?_, ?_⟩
    · rw [List.mem_map]
      exact ⟨r - sr, by rw [List.mem_range]; omega, by omega⟩
    · rw [hk]; dsimp only; rw [if_pos hcnt]

theorem mem_stepMarks {s : Sheet} {hidx : List (String × Nat)} {sr : Nat}
    {lbl : String} {p : Nat × Nat} :
    p ∈ stepMarks s hidx sr lbl ↔
      ∃ col, hdrGet hidx (_norm_key lbl) = some col ∧ col ≠ 0 ∧
        p ∈ colMarks s col sr (effMaxRow s sr) := by
  unfold stepMarks
  rcases h : hdrGet hidx (_norm_key lbl) with _ | col
  · simp
  · dsimp only
    by_cases hc : col = 0
    · simp [hc]
    · simp only [if_neg hc]
      constructor
      · intro hp; exact ⟨col, rfl, hc, hp⟩
      · rintro ⟨col', hcol', _, hp⟩
        cases Option.some.inj hcol'
        exact hp

theorem mem_marksOf (labels : List String) :
    ∀ (s : Sheet) (hidx : List (String × Nat)) (sr : Nat) (p : Nat × Nat),
      p ∈ marksOf s hidx sr labels ↔
        ∃ lbl, lbl ∈ labels ∧ p ∈ stepMarks s hidx sr lbl := by
  induction labels with
  | nil => intro s hidx sr p; simp [marksOf]
  | cons lbl rest ih =>
    intro s hidx sr p
    rw [marksOf, List.mem_append, ih]
    constructor
    · rintro (h | ⟨l, hl, hp⟩)
      · exact ⟨lbl, List.mem_cons_self _ _, h⟩
      · exact ⟨l, List.mem_cons_of_mem _ hl, hp⟩
    · rintro ⟨l, hl, hp⟩
      rcases List.mem_cons.mp hl with rfl | hl'
      · exact Or.inl hp
      · exact Or.inr ⟨l, hl', hp⟩

/-- Every marked cell sits at or below the start row (so rows 1 and 2 are
never highlighted when `sr = 3`). -/
theorem marksOf_row_ge {labels : List String} {s : Sheet}
    {hidx : List (String × Nat)} {sr : Nat} {p : Nat × Nat}
    (h : p ∈ marksOf s hidx sr labels) : sr ≤ p.1 := by
  obtain ⟨lbl, _, hp⟩ := (mem_marksOf labels s hidx sr p).mp h
  obtain ⟨col, _, _, hcm⟩ := mem_stepMarks.mp hp
  obtain ⟨_, h2, _⟩ := mem_colMarks.mp (show (p.1, p.2) ∈ _ from hcm)
  exact h2

/-- Every marked cell's column is one of the resolved label columns. -/
theorem marksOf_col_resolved {labels : List String} {s : Sheet}
    {hidx : List (String × Nat)} {sr : Nat} {p : Nat × Nat}
    (h : p ∈ marksOf s hidx sr labels) :
    ∃ lbl, lbl ∈ labels ∧ hdrGet hidx (_norm_key lbl) = some p.2 := by
  obtain ⟨lbl, hl, hp⟩ := (mem_marksOf labels s hidx sr p).mp h
  obtain ⟨col, hcol, _, hcm⟩ := mem_stepMarks.mp hp
  obtain ⟨h1, _, _⟩ := mem_colMarks.mp (show (p.1, p.2) ∈ _ from hcm)
  exact ⟨lbl, hl, by rw [hcol, h1]⟩

/-! ## Lemmas for the pair-resolution loop -/

theorem resolvePairs_missingRaw_mem (hidx : List (String × Nat))
    (rawCols : List String) (mapping : List MappingEntry) :
    ∀ e ∈ mapping, rawNormGet rawCols (looseKey e.raw_header) = none →
      e.raw_header ∈ (resolvePairs hidx rawCols mapping).2.1 := by
  induction mapping with
  | nil => intro e he; exact absurd he (List.not_mem_nil _)
  | cons e0 rest ih =>
    intro e he hmiss
    rw [resolvePairs]
    rcases List.mem_cons.mp he with rfl | he'
    · rw [hmiss]
      dsimp only
      exact List.mem_cons_self _ _
    · rcases h1 : rawNormGet rawCols (looseKey e0.raw_header) with _ | rc
      · dsimp only
        exact List.mem_cons_of_mem _ (ih e he' hmiss)
      · rcases h2 : hdrGet hidx (_norm_key e0.template_header) with _ | ci <;>
          (dsimp only; exact ih e he' hmiss)

theorem resolvePairs_missingTpl_mem (hidx : List (String × Nat))
    (rawCols : List String) (mapping : List MappingEntry) :
    ∀ e ∈ mapping, (rawNormGet rawCols (looseKey e.raw_header)).isSome = true →
      hdrGet hidx (_norm_key e.template_header) = none →
      e.template_header ∈ (resolvePairs hidx rawCols mapping).2.2 := by
  induction mapping with
  | nil => intro e he; exact absurd he (List.not_mem_nil _)
  | cons e0 rest ih =>
    intro e he hsome hmiss
    rw [resolvePairs]
    rcases List.mem_cons.mp he with rfl | he'
    · rcases h1 : rawNormGet rawCols (looseKey e.raw_header) with _ | rc
      · rw [h1] at hsome; exact absurd hsome (by simp)
      · rw [hmiss]
        dsimp only
        exact List.mem_cons_self _ _
    · rcases h1 : rawNormGet rawCols (looseKey e0.raw_header) with _ | rc
      · dsimp only
        exact ih e he' hsome hmiss
      · rcases h2 : hdrGet hidx (_norm_key e0.template_header) with _ | ci
        · dsimp only
          exact List.mem_cons_of_mem _ (ih e he' hsome hmiss)
        · dsimp only
          exact ih e he' hsome hmiss

theorem resolvePairs_pairs_mem (hidx : List (String × Nat))
    (rawCols : List String) (mapping : List MappingEntry) :
    ∀ p ∈ (resolvePairs hidx rawCols mapping).1,
      ∃ e, e ∈ mapping ∧
        rawNormGet rawCols (looseKey e.raw_header) = some p.1 ∧
        hdrGet hidx (_norm_key e.template_header) = some p.2 := by
  induction mapping with
  | nil => intro p hp; exact absurd hp (List.not_mem_nil _)
  | cons e0 rest ih =>
    intro p hp
    rw [resolvePairs] at hp
    rcases h1 : rawNormGet rawCols (looseKey e0.raw_header) with _ | rc
    · rw [h1] at hp
      obtain ⟨e, he, h⟩ := ih p hp
      exact ⟨e, List.mem_cons_of_mem _ he, h⟩
    · rcases h2 : hdrGet hidx (_norm_key e0.template_header) with _ | ci
      · rw [h1, h2] at hp
        obtain ⟨e, he, h⟩ := ih p hp
        exact ⟨e, List.mem_cons_of_mem _ he, h⟩
      · rw [h1, h2] at hp
        rcases List.mem_cons.mp hp with rfl | hp'
        · exact ⟨e0, List.mem_cons_self _ _, h1, h2⟩
        · obtain ⟨e, he, h⟩ := ih _ hp'
          exact ⟨e, List.mem_cons_of_mem _ he, h⟩

/-! ## Lemmas for mapping deduplication (`drop_duplicates`) -/

theorem dedupBy_not_mem_seen (l : List MappingEntry) :
    ∀ (seen : List String) (e : MappingEntry), e ∈ dedupBy seen l →
      e.template_header ∉ seen := by
  induction l with
  | nil => intro seen e he; exact absurd he (List.not_mem_nil _)
  | cons e0 rest ih =>
    intro seen e he
    rw [dedupBy] at he
    by_cases h : e0.template_header ∈ seen
    · rw [if_pos h] at he; exact ih seen e he
    · rw [if_neg h] at he
      rcases List.mem_cons.mp he with rfl | he2
      · exact h
      · intro hs
        exact ih _ e he2 (List.mem_cons_of_mem _ hs)

theorem dedupBy_nodup (l : List MappingEntry) :
    ∀ seen : List String,
      ((dedupBy seen l).map MappingEntry.template_header).Nodup := by
  induction l with
  | nil => intro seen; simp [dedupBy]
  | cons e0 rest ih =>
    intro seen
    rw [dedupBy]
    by_cases h : e0.template_header ∈ seen
    · rw [if_pos h]; exact ih seen
    · rw [if_neg h]
      rw [List.map_cons, List.nodup_cons]
      refine ⟨?_, ih _⟩
      intro hmem
      rw [List.mem_map] at hmem
      obtain ⟨e, he, heq⟩ := hmem
      exact dedupBy_not_mem_seen rest _ e he
        (by rw [heq]; exact List.mem_cons_self _ _)

theorem dedupBy_find? (l : List MappingEntry) :
    ∀ (seen : List String) (k : String), k ∉ seen →
      (dedupBy seen l).find? (fun e => e.template_header == k)
        = l.find? (fun e => e.template_header == k) := by
  induction l with
  | nil => intro seen k _; rfl
  | cons e0 rest ih =>
    intro seen k hk
    rw [dedupBy]
    by_cases h : e0.template_header ∈ seen
    · rw [if_pos h]
      have hne : (e0.template_header == k) = false := by
        rw [beq_eq_false_iff_ne]
        intro heq; exact hk (heq ▸ h)
      rw [List.find?_cons_of_neg _ (by simp [hne]), ih seen k hk]
    · rw [if_neg h]
      by_cases hpk : e0.template_header = k
      · rw [List.find?_cons_of_pos _ (by simp [hpk]),
          List.find?_cons_of_pos _ (by simp [hpk])]
      · have hk2 : k ∉ e0.template_header :: seen := by
          intro hmem
          rcases List.mem_cons.mp hmem with rfl | hmem2
          · exact hpk rfl
          · exact hk hmem2
        rw [List.find?_cons_of_neg _ (by simp [hpk]),
          List.find?_cons_of_neg _ (by simp [hpk]), ih _ k hk2]

/-! ## Permutation invariance of mapping-role detection -/

theorem perm_short_eq {α : Type} :
    ∀ {l l2 : List α}, l.Perm l2 → l.length ≤ 1 → l = l2 := by
  intro l l2 h hl
  match l, hl with
  | [], _ => exact h.nil_eq
  | [a], _ =>
    have := h.length_eq
    match l2, this with
    | [b], _ =>
      have : a ∈ [b] := h.mem_iff.mp (List.mem_singleton_self a)
      rw [List.mem_singleton] at this
      rw [this]

theorem filter_norm_length_le (k : String) (cols : List String)
    (h : (cols.map _norm_key).Nodup) :
    (cols.filter (fun c => _norm_key c == k)).length ≤ 1 := by
  induction cols with
  | nil => simp
  | cons c rest ih =>
    rw [List.map_cons, List.nodup_cons] at h
    obtain ⟨hc, hrest⟩ := h
    by_cases hck : _norm_key c = k
    · have hnil : rest.filter (fun c2 => _norm_key c2 == k) = [] := by
        rw [List.filter_eq_nil_iff]
        intro a ha hpa
        apply hc
        rw [List.mem_map]
        rw [beq_iff_eq] at hpa
        exact ⟨a, ha, by rw [hpa, hck]⟩
      rw [List.filter_cons_of_pos (by simp [hck]), hnil]
      simp
    · rw [List.filter_cons_of_neg (by simp [hck])]
      exact ih hrest

theorem colsNormGet_perm {cols cols2 : List String} (hp : cols.Perm cols2)
    (hnd : (cols.map _norm_key).Nodup) (k : String) :
    colsNormGet cols k = colsNormGet cols2 k := by
  unfold colsNormGet
  rw [perm_short_eq (hp.filter _) (filter_norm_length_le k cols hnd)]

theorem findRole_perm {cols cols2 : List String} (hp : cols.Perm cols2)
    (hnd : (cols.map _norm_key).Nodup) (aliases : List String) :
    findRole cols aliases = findRole cols2 aliases := by
  unfold findRole
  rw [funext (colsNormGet_perm hp hnd)]

/-! ## Concrete instances used by witnesses and counterexamples -/

/-- Template first sheet: row 1 headers SKU / Title / Barcode, a reserved
second row, stale content at (4, 2). -/
def exTemplate : Sheet :=
  { cells := fun p =>
      if p = (1, 1) then .vStr "SKU" else if p = (1, 2) then .vStr "Title"
      else if p = (1, 3) then .vStr "Barcode"
      else if p = (2, 1) then .vStr "reserved"
      else if p = (4, 2) then .vStr "OLD" else .vNone
    fills := fun _ => false
    maxRow := 4
    maxCol := 3 }

/-- A second sheet, only ever passed through. -/
def exOther : Sheet :=
  { cells := fun _ => .vStr "other", fills := fun _ => false
    maxRow := 1, maxCol := 1 }

/-- Raw table with two rows; the second row's `name` is missing (NaN). -/
def exRaw : RawTable :=
  { cols := ["sku", "name"]
    rows := [[("sku", .vStr "A1"), ("name", .vStr "Widget")],
             [("sku", .vStr "A1"), ("name", .vNaN)]] }

/-- Mapping with both entries resolvable. -/
def exMapping : List MappingEntry := [⟨"sku", "SKU"⟩, ⟨"name", "Title"⟩]

/-- Mapping with one unresolvable source (`zz`) and one unresolvable
target (`Gone`). -/
def exMappingWarn : List MappingEntry :=
  [⟨"sku", "SKU"⟩, ⟨"name", "Title"⟩, ⟨"zz", "Nope"⟩, ⟨"sku", "Gone"⟩]

/-- A sheet whose first row is entirely empty (data elsewhere). -/
def exBlankTop : Sheet :=
  { cells := fun p => if p.1 = 1 then .vNone else .vStr "data"
    fills := fun _ => false, maxRow := 5, maxCol := 4 }

/-- A sheet whose single header is "Partner SKU". -/
def exPartnerSheet : Sheet :=
  { cells := fun p => if p = (1, 1) then .vStr "Partner SKU" else .vNone
    fills := fun _ => false, maxRow := 2, maxCol := 1 }

/-- "Partner SKU" column holding the integer 123 and the text "123". -/
def exMixed : Sheet :=
  { cells := fun p =>
      if p = (1, 1) then .vStr "Partner SKU"
      else if p = (3, 1) then .vInt 123
      else if p = (4, 1) then .vStr "123" else .vNone
    fills := fun _ => false, maxRow := 4, maxCol := 1 }

/-- Mapping-file rows with a duplicated target header "SKU". -/
def exMapRows : List Row :=
  [[("Template", .vStr "SKU"), ("Raw", .vStr "sku")],
   [("Template", .vStr "SKU"), ("Raw", .vStr "other")],
   [("Template", .vStr "Title"), ("Raw", .vStr "name")]]

/-- Sheet whose row 1 holds only "SKU" (for the both-sides-missing entry). -/
def exTplOnlySKU : Sheet :=
  { cells := fun p => if p = (1, 1) then .vStr "SKU" else .vNone
    fills := fun _ => false, maxRow := 1, maxCol := 1 }

/-! ## Claims -/

/-- C1: on a successful fill, output rows on the first sheet start at row 3,
one output row per RawTable row in RawTable order with no gaps (row `3 + j`
holds exactly the values of raw row `j`, written through every active pair,
with blank raw values written as empty strings rather than skipping the
row), and no cell below row 3 or past the last raw row is written.  The
`Nodup` hypothesis says the active pairs target pairwise distinct columns,
ruling out two template headers that normalize identically. -/
theorem C1_rows_written_sequentially (ws : Sheet) (rest : List Sheet)
    (mapping : List MappingEntry) (raw : RawTable)
    (hh : (headerEntries ws).isEmpty = false)
    (hnd : ((resolvePairs (headerEntries ws) raw.cols mapping).1.map Prod.snd).Nodup) :
    fill ⟨ws :: rest⟩ mapping raw
      = .ok (⟨fillSheet ws mapping raw :: rest⟩,
             (resolvePairs (headerEntries ws) raw.cols mapping).2.1,
             (resolvePairs (headerEntries ws) raw.cols mapping).2.2)
    ∧ (∀ (j : Nat) (hj : j < raw.rows.length) (rc : String) (ci : Nat),
        (rc, ci) ∈ (resolvePairs (headerEntries ws) raw.cols mapping).1 →
        (fillSheet ws mapping raw).cells (3 + j, ci)
          = writeVal (rowGet (raw.rows.get ⟨j, hj⟩) rc))
    ∧ (∀ r c : Nat, r < 3 →
        (fillSheet ws mapping raw).cells (r, c) = ws.cells (r, c))
    ∧ (∀ r c : Nat, 3 + raw.rows.length ≤ r →
        (fillSheet ws mapping raw).cells (r, c) = ws.cells (r, c)) := by
  have hfs : (fillSheet ws mapping raw).cells
      = (writeRows ws (resolvePairs (headerEntries ws) raw.cols mapping).1
          0 raw.rows).cells := by
    simp only [fillSheet]
    exact highlight_cells _ _ _ _
  refine ⟨by simp [fill, hh], ?_, ?_, ?_⟩
  · intro j hj rc ci hm
    rw [hfs]
    have := writeRows_cells_get raw.rows ws _ 0 j hj rc ci hnd hm
    simpa using this
  · intro r c hr
    rw [hfs]
    exact writeRows_cells_lt raw.rows ws _ 0 (r, c) (by simpa)
  · intro r c hr
    rw [hfs]
    exact writeRows_cells_ge raw.rows ws _ 0 (r, c) (by simpa)

/-- Witness for C1 at the concrete template / mapping / raw table:
row 3 gets raw row 0 ("A1"), row 4 column 2 gets the blank (NaN) raw value
as the empty string — the all-blank-cell row is still written — and row 5
(just past the two raw rows) is untouched. -/
theorem C1_rows_written_sequentially_witness :
    ((headerEntries exTemplate).isEmpty = false
      ∧ ((resolvePairs (headerEntries exTemplate) exRaw.cols exMapping).1.map
          Prod.snd).Nodup)
    ∧ (fillSheet exTemplate exMapping exRaw).cells (3, 1) = .vStr "A1"
    ∧ (fillSheet exTemplate exMapping exRaw).cells (4, 2) = .vStr ""
    ∧ (fillSheet exTemplate exMapping exRaw).cells (5, 1)
        = exTemplate.cells (5, 1) :=
  ⟨⟨by decide, by decide⟩,
   ((C1_rows_written_sequentially exTemplate [] exMapping exRaw (by decide)
      (by decide)).2.1 0 (by decide) "sku" 1 (by decide)).trans rfl,
   ((C1_rows_written_sequentially exTemplate [] exMapping exRaw (by decide)
      (by decide)).2.1 1 (by decide) "name" 2 (by decide)).trans rfl,
   (C1_rows_written_sequentially exTemplate [] exMapping exRaw (by decide)
      (by decide)).2.2.2 5 1 (by decide)⟩

/-- C4: if row 1 of the first sheet yields no header after normalization,
the whole fill fails with the "no headers" error and returns no workbook —
nothing is written. -/
theorem C4_no_headers_fatal (ws : Sheet) (rest : List Sheet)
    (mapping : List MappingEntry) (raw : RawTable)
    (hh : (headerEntries ws).isEmpty = true) :
    fill ⟨ws :: rest⟩ mapping raw = .error noHeadersError := by
  simp [fill, hh]

/-- Witness for C4: a sheet whose row 1 is entirely empty aborts the fill
with the structure error. -/
theorem C4_no_headers_fatal_witness :
    (headerEntries exBlankTop).isEmpty = true
    ∧ fill ⟨[exBlankTop, exOther]⟩ exMapping exRaw = .error noHeadersError :=
  ⟨by decide,
   C4_no_headers_fatal exBlankTop [exOther] exMapping exRaw (by decide)⟩

/-- C2 counterexample: the claim says every entry whose target header is
not normalized-matched in row 1 lands in the `missingTemplate` list; but
the code checks the source first and `continue`s, so an entry missing on
BOTH sides is recorded only in `missing_raw`.  Here the entry
(raw "b", template "ZZZ") has an unmatched target ("ZZZ" is not a header
of the sheet) yet the fill's missingTemplate list is empty. -/
theorem C2_counterexample :
    hdrGet (headerEntries exTplOnlySKU) (_norm_key "ZZZ") = none
    ∧ rawNormGet ["a"] (looseKey "b") = none
    ∧ fillMissingTpl ⟨[exTplOnlySKU]⟩ [⟨"b", "ZZZ"⟩]
        ⟨["a"], [[("a", .vInt 1)]]⟩ = some []
    ∧ fillMissingRaw ⟨[exTplOnlySKU]⟩ [⟨"b", "ZZZ"⟩]
        ⟨["a"], [[("a", .vInt 1)]]⟩ = some ["b"] := by
  refine ⟨by decide, by decide, ?_, ?_⟩ <;> rfl

/-- C2 (amended): for every mapping entry whose source column is not found
in the raw table, the entry's source name is appended to the `missing_raw`
warning list and the entry is skipped; for every entry whose source IS
found but whose target header is not normalized-matched in row 1, the
target header text appears in the `missing_tpl` list (an entry missing on
both sides is recorded only in `missing_raw`); every written pair stems
from an entry with both sides resolved; and when the header index is
non-empty the fill returns `.ok` — all missing-column conditions degrade
to warnings and a best-effort partial fill, the only fatal error being
"no headers found". -/
theorem C2_missing_columns_degrade_to_warnings (ws : Sheet) (rest : List Sheet)
    (mapping : List MappingEntry) (raw : RawTable)
    (hh : (headerEntries ws).isEmpty = false) :
    fill ⟨ws :: rest⟩ mapping raw
      = .ok (⟨fillSheet ws mapping raw :: rest⟩,
             (resolvePairs (headerEntries ws) raw.cols mapping).2.1,
             (resolvePairs (headerEntries ws) raw.cols mapping).2.2)
    ∧ (∀ e ∈ mapping, rawNormGet raw.cols (looseKey e.raw_header) = none →
        e.raw_header ∈ (resolvePairs (headerEntries ws) raw.cols mapping).2.1)
    ∧ (∀ e ∈ mapping, (rawNormGet raw.cols (looseKey e.raw_header)).isSome = true →
        hdrGet (headerEntries ws) (_norm_key e.template_header) = none →
        e.template_header ∈ (resolvePairs (headerEntries ws) raw.cols mapping).2.2)
    ∧ (∀ p ∈ (resolvePairs (headerEntries ws) raw.cols mapping).1,
        ∃ e, e ∈ mapping
          ∧ rawNormGet raw.cols (looseKey e.raw_header) = some p.1
          ∧ hdrGet (headerEntries ws) (_norm_key e.template_header) = some p.2) := by
  exact ⟨by simp [fill, hh],
    resolvePairs_missingRaw_mem _ _ _,
    resolvePairs_missingTpl_mem _ _ _,
    resolvePairs_pairs_mem _ _ _⟩

/-- Witness for C2 (amended): with one unresolvable source ("zz") and one
unresolvable target ("Gone"), the fill still succeeds and both warnings
are recorded. -/
theorem C2_missing_columns_degrade_to_warnings_witness :
    ((headerEntries exTemplate).isEmpty = false)
    ∧ "zz" ∈ (resolvePairs (headerEntries exTemplate) exRaw.cols exMappingWarn).2.1
    ∧ "Gone" ∈ (resolvePairs (headerEntries exTemplate) exRaw.cols exMappingWarn).2.2
    ∧ fill ⟨[exTemplate]⟩ exMappingWarn exRaw
        = .ok (⟨[fillSheet exTemplate exMappingWarn exRaw]⟩,
               (resolvePairs (headerEntries exTemplate) exRaw.cols exMappingWarn).2.1,
               (resolvePairs (headerEntries exTemplate) exRaw.cols exMappingWarn).2.2) :=
  ⟨by decide,
   (C2_missing_columns_degrade_to_warnings exTemplate [] exMappingWarn exRaw
      (by decide)).2.1 ⟨"zz", "Nope"⟩ (by decide) (by decide),
   (C2_missing_columns_degrade_to_warnings exTemplate [] exMappingWarn exRaw
      (by decide)).2.2.1 ⟨"sku", "Gone"⟩ (by decide) (by decide) (by decide),
   (C2_missing_columns_degrade_to_warnings exTemplate [] exMappingWarn exRaw
      (by decide)).1⟩

/-- C3: the fill mutates only the first sheet — the sheets at position 1
and beyond are returned unchanged (same objects, hence same names, values,
styles, merges); rows 1 and 2 of the first sheet keep their values and
fills; cells outside the active pairs' columns or outside rows
3 .. 3+len-1 keep their values; and fills change at most in the columns
the two identifier labels resolve to. -/
theorem C3_frame (ws : Sheet) (rest : List Sheet)
    (mapping : List MappingEntry) (raw : RawTable)
    (hh : (headerEntries ws).isEmpty = false) :
    fill ⟨ws :: rest⟩ mapping raw
      = .ok (⟨fillSheet ws mapping raw :: rest⟩,
             (resolvePairs (headerEntries ws) raw.cols mapping).2.1,
             (resolvePairs (headerEntries ws) raw.cols mapping).2.2)
    ∧ (∀ c : Nat, (fillSheet ws mapping raw).cells (1, c) = ws.cells (1, c)
        ∧ (fillSheet ws mapping raw).cells (2, c) = ws.cells (2, c)
        ∧ (fillSheet ws mapping raw).fills (1, c) = ws.fills (1, c)
        ∧ (fillSheet ws mapping raw).fills (2, c) = ws.fills (2, c))
    ∧ (∀ r c : Nat,
        (r < 3 ∨ 3 + raw.rows.length ≤ r ∨
          c ∉ (resolvePairs (headerEntries ws) raw.cols mapping).1.map Prod.snd) →
        (fillSheet ws mapping raw).cells (r, c) = ws.cells (r, c))
    ∧ (∀ r c : Nat,
        hdrGet (headerEntries ws) (_norm_key "Partner SKU") ≠ some c →
        hdrGet (headerEntries ws) (_norm_key "Barcode") ≠ some c →
        (fillSheet ws mapping raw).fills (r, c) = ws.fills (r, c)) := by
  have hfs : (fillSheet ws mapping raw).cells
      = (writeRows ws (resolvePairs (headerEntries ws) raw.cols mapping).1
          0 raw.rows).cells := by
    simp only [fillSheet]
    exact highlight_cells _ _ _ _
  have hwf : (writeRows ws (resolvePairs (headerEntries ws) raw.cols mapping).1
      0 raw.rows).fills = ws.fills := writeRows_fills _ _ _ _
  have hfillse : ∀ p : Nat × Nat,
      (fillSheet ws mapping raw).fills p
        = (decide (p ∈ marksOf
            (writeRows ws (resolvePairs (headerEntries ws) raw.cols mapping).1
              0 raw.rows)
            (headerEntries ws) 3 highlightLabels) || ws.fills p) := by
    intro p
    have := highlight_fills highlightLabels
      (writeRows ws (resolvePairs (headerEntries ws) raw.cols mapping).1
        0 raw.rows) (headerEntries ws) 3 p
    simp only [fillSheet]
    rw [this, hwf]
  refine ⟨by simp [fill, hh], ?_, ?_, ?_⟩
  · intro c
    refine ⟨?_, ?_, ?_, ?_⟩
    · rw [hfs]; exact writeRows_cells_lt raw.rows ws _ 0 (1, c) (by simp)
    · rw [hfs]; exact writeRows_cells_lt raw.rows ws _ 0 (2, c) (by simp)
    · rw [hfillse]
      have : ¬((1, c) ∈ marksOf
          (writeRows ws (resolvePairs (headerEntries ws) raw.cols mapping).1
            0 raw.rows) (headerEntries ws) 3 highlightLabels) := by
        intro hmem
        have := marksOf_row_ge hmem
        simp at this
      simp [this]
    · rw [hfillse]
      have : ¬((2, c) ∈ marksOf
          (writeRows ws (resolvePairs (headerEntries ws) raw.cols mapping).1
            0 raw.rows) (headerEntries ws) 3 highlightLabels) := by
        intro hmem
        have := marksOf_row_ge hmem
        simp at this
      simp [this]
  · intro r c hcase
    rw [hfs]
    rcases hcase with h | h | h
    · exact writeRows_cells_lt raw.rows ws _ 0 (r, c) (by simpa)
    · exact writeRows_cells_ge raw.rows ws _ 0 (r, c) (by simpa)
    · exact writeRows_cells_notcol raw.rows ws _ 0 (r, c) h
  · intro r c h1 h2
    rw [hfillse]
    have : ¬((r, c) ∈ marksOf
        (writeRows ws (resolvePairs (headerEntries ws) raw.cols mapping).1
          0 raw.rows) (headerEntries ws) 3 highlightLabels) := by
      intro hmem
      obtain ⟨lbl, hl, hres⟩ := marksOf_col_resolved hmem
      rcases List.mem_cons.mp hl with rfl | hl2
      · exact h1 hres
      · rcases List.mem_cons.mp hl2 with rfl | hl3
        · exact h2 hres
        · exact absurd hl3 (List.not_mem_nil _)
    simp [this]

/-- Witness for C3: with a second sheet present, the fill passes it
through unchanged, keeps rows 1 and 2 (values and fills), leaves the
unmapped Barcode column (3) untouched, and leaves fills outside the
identifier columns alone. -/
theorem C3_frame_witness :
    ((headerEntries exTemplate).isEmpty = false)
    ∧ fill ⟨[exTemplate, exOther]⟩ exMapping exRaw
        = .ok (⟨[fillSheet exTemplate exMapping exRaw, exOther]⟩,
               (resolvePairs (headerEntries exTemplate) exRaw.cols exMapping).2.1,
               (resolvePairs (headerEntries exTemplate) exRaw.cols exMapping).2.2)
    ∧ (fillSheet exTemplate exMapping exRaw).cells (1, 1) = exTemplate.cells (1, 1)
    ∧ (fillSheet exTemplate exMapping exRaw).cells (2, 1) = exTemplate.cells (2, 1)
    ∧ (fillSheet exTemplate exMapping exRaw).cells (3, 3) = exTemplate.cells (3, 3)
    ∧ (fillSheet exTemplate exMapping exRaw).fills (3, 2) = exTemplate.fills (3, 2) :=
  ⟨by decide,
   (C3_frame exTemplate [exOther] exMapping exRaw (by decide)).1,
   ((C3_frame exTemplate [exOther] exMapping exRaw (by decide)).2.1 1).1,
   ((C3_frame exTemplate [exOther] exMapping exRaw (by decide)).2.1 1).2.1,
   (C3_frame exTemplate [exOther] exMapping exRaw (by decide)).2.2.1 3 3
     (Or.inr (Or.inr (by decide))),
   (C3_frame exTemplate [exOther] exMapping exRaw (by decide)).2.2.2 3 2
     (by decide) (by decide)⟩

/-- C5 counterexample: "Partner SKU" and "partner-sku" are equal under the
strict-alnum normalization, yet source-column resolution against the raw
columns — which uses plain `strip().lower()`, not `_norm_key` — resolves
"Partner SKU" to the raw column and fails on "partner-sku"; in a fill the
entry is even reported as a missing RAW column although its header is
normalized-equal to the raw column's.  So one single normalization policy
is NOT applied at all four comparison sites. -/
theorem C5_counterexample :
    _norm_key "Partner SKU" = _norm_key "partner-sku"
    ∧ rawNormGet ["Partner SKU"] (looseKey "Partner SKU") = some "Partner SKU"
    ∧ rawNormGet ["Partner SKU"] (looseKey "partner-sku") = none
    ∧ (resolvePairs (headerEntries exPartnerSheet) ["Partner SKU"]
        [⟨"partner-sku", "partner-sku"⟩]).2.1 = ["partner-sku"] := by
  refine ⟨by decide, by decide, by decide, by decide⟩

/-- C5 (amended): the strict-alnum policy (`_norm_key`) is applied to
template row-1 indexing, mapping role detection and mapping target
resolution — so "partner-sku" as an entry target matches the template
header "Partner SKU", and decorated role headers like "Template#" /
"RAW HEADER" are recognized — but source-column resolution against the raw
columns uses only trim+lowercase, which tolerates case and edge whitespace
("  PARTNER sku ") yet does NOT identify "partner-sku" with
"Partner SKU". -/
theorem C5_normalization_sites :
    (_norm_key "Partner SKU" = "partnersku"
      ∧ _norm_key "partner-sku" = "partnersku"
      ∧ _norm_key "PARTNERSKU" = "partnersku")
    ∧ headerEntries exPartnerSheet = [("partnersku", 1)]
    ∧ findRole ["Template#", "RAW HEADER"] template_aliases = some "Template#"
    ∧ findRole ["Template#", "RAW HEADER"] raw_aliases = some "RAW HEADER"
    ∧ (resolvePairs (headerEntries exPartnerSheet) ["partner-sku"]
        [⟨"PARTNER-SKU", "partner_sku"⟩]).1 = [("partner-sku", 1)]
    ∧ rawNormGet ["Partner SKU"] (looseKey "  PARTNER sku ") = some "Partner SKU"
    ∧ rawNormGet ["Partner SKU"] (looseKey "partner-sku") = none := by
  refine ⟨⟨by decide, by decide, by decide⟩, by decide, by decide, by decide,
    by decide, by decide, by decide⟩

/-- C6: under a resolvable mapping file, `read_two_col_mapping` returns
the projected rows deduplicated by exact target-header text: the surviving
entries have pairwise distinct target headers, and for every target-header
key the surviving entry is precisely the first entry carrying it in file
order (after trimming and empty-row filtering). -/
theorem C6_duplicate_targets_first_wins (cols : List String) (rows : List Row)
    (tplCol rawCol : String)
    (ht : findRole cols template_aliases = some tplCol)
    (hr : findRole cols raw_aliases = some rawCol)
    (hne : (rows.isEmpty || cols.isEmpty) = false) :
    read_two_col_mapping cols rows
      = .ok (dedupBy [] (projectMapping tplCol rawCol rows))
    ∧ ((dedupBy [] (projectMapping tplCol rawCol rows)).map
        MappingEntry.template_header).Nodup
    ∧ (∀ k : String,
        (dedupBy [] (projectMapping tplCol rawCol rows)).find?
            (fun e => e.template_header == k)
          = (projectMapping tplCol rawCol rows).find?
            (fun e => e.template_header == k)) := by
  refine ⟨?_, dedupBy_nodup _ _, fun k => dedupBy_find? _ _ k (List.not_mem_nil _)⟩
  simp [read_two_col_mapping, hne, ht, hr]

/-- Witness for C6: a mapping file listing target "SKU" twice (sources
"sku" then "other") keeps only the first pair, and the kept entry for key
"SKU" is the first-seen one. -/
theorem C6_duplicate_targets_first_wins_witness :
    (findRole ["Template", "Raw"] template_aliases = some "Template"
      ∧ findRole ["Template", "Raw"] raw_aliases = some "Raw"
      ∧ (exMapRows.isEmpty || (["Template", "Raw"] : List String).isEmpty) = false)
    ∧ read_two_col_mapping ["Template", "Raw"] exMapRows
        = .ok (dedupBy [] (projectMapping "Template" "Raw" exMapRows))
    ∧ (dedupBy [] (projectMapping "Template" "Raw" exMapRows)).find?
          (fun e => e.template_header == "SKU")
        = (projectMapping "Template" "Raw" exMapRows).find?
          (fun e => e.template_header == "SKU")
    ∧ dedupBy [] (projectMapping "Template" "Raw" exMapRows)
        = [⟨"sku", "SKU"⟩, ⟨"name", "Title"⟩] :=
  ⟨⟨by decide, by decide, by decide⟩,
   (C6_duplicate_targets_first_wins ["Template", "Raw"] exMapRows "Template"
      "Raw" (by decide) (by decide) (by decide)).1,
   (C6_duplicate_targets_first_wins ["Template", "Raw"] exMapRows "Template"
      "Raw" (by decide) (by decide) (by decide)).2.2 "SKU",
   by decide⟩

/-- Mapping row with two template-role columns of normalized-equal names
("Template" and "TEMPLATE!") holding different texts, plus a raw column. -/
def exDupRoleRows : List Row :=
  [[("Template", .vStr "FromPlain"), ("TEMPLATE!", .vStr "FromBang"),
    ("Raw", .vStr "s")]]

/-- C7 counterexample: resolution is NOT independent of physical column
order for every mapping file — when two columns share a normalized name
("Template" / "TEMPLATE!"), the dict comprehension keeps the last one, so
swapping the two columns changes which column's data is projected. -/
theorem C7_counterexample :
    (["Template", "TEMPLATE!", "Raw"] : List String).Perm
      ["TEMPLATE!", "Template", "Raw"]
    ∧ read_two_col_mapping ["Template", "TEMPLATE!", "Raw"] exDupRoleRows
        = .ok [⟨"s", "FromBang"⟩]
    ∧ read_two_col_mapping ["TEMPLATE!", "Template", "Raw"] exDupRoleRows
        = .ok [⟨"s", "FromPlain"⟩] :=
  ⟨List.Perm.swap "TEMPLATE!" "Template" ["Raw"], rfl, rfl⟩

/-- C7 (amended): mapping-file role resolution is independent of the
physical order of the file's columns provided no two columns share a
normalized header name — for any permutation of such a column list
`read_two_col_mapping` returns the identical result — and when either
role cannot be alias-matched the resolver fails with the fixed error
naming both required roles (modelled as the `.error` carrying that
message, the code's `st.error` + empty DataFrame). -/
theorem C7_role_matching_order_independent (cols cols2 : List String)
    (rows : List Row) (hp : cols.Perm cols2)
    (hnd : (cols.map _norm_key).Nodup) :
    read_two_col_mapping cols rows = read_two_col_mapping cols2 rows
    ∧ ((findRole cols template_aliases = none
          ∨ findRole cols raw_aliases = none) →
        rows.isEmpty = false → cols.isEmpty = false →
        read_two_col_mapping cols rows = .error mappingRoleError) := by
  constructor
  · have hemp : cols.isEmpty = cols2.isEmpty := by
      have := hp.length_eq
      cases cols <;> cases cols2 <;> simp_all
    unfold read_two_col_mapping
    rw [findRole_perm hp hnd template_aliases, findRole_perm hp hnd raw_aliases,
      hemp]
  · intro hrole hre hce
    rcases hrole with h | h
    · simp [read_two_col_mapping, hre, hce, h]
    · rcases ht : findRole cols template_aliases with _ | t <;>
        simp [read_two_col_mapping, hre, hce, h, ht]

/-- Witness for C7: swapping the two columns of the mapping file leaves
the result unchanged, and a file offering no template-role column fails
with the fixed role error. -/
theorem C7_role_matching_order_independent_witness :
    ((["Template", "Raw"] : List String).Perm ["Raw", "Template"]
      ∧ ((["Template", "Raw"] : List String).map _norm_key).Nodup)
    ∧ read_two_col_mapping ["Template", "Raw"] exMapRows
        = read_two_col_mapping ["Raw", "Template"] exMapRows
    ∧ read_two_col_mapping ["Foo", "Raw"] exMapRows = .error mappingRoleError :=
  ⟨⟨List.Perm.swap "Raw" "Template" [], by decide⟩,
   (C7_role_matching_order_independent ["Template", "Raw"] ["Raw", "Template"]
      exMapRows (List.Perm.swap "Raw" "Template" []) (by decide)).1,
   (C7_role_matching_order_independent ["Foo", "Raw"] ["Foo", "Raw"] exMapRows
      (List.Perm.refl _) (by decide)).2 (Or.inl (by decide)) (by decide)
      (by decide)⟩

/-- C8: on a successful fill, every raw row whose value in a mapped source
column is blank/missing (`pd.isna`) has its target cell written as the
explicit empty string — overwriting whatever was there — and never as the
literal text "NaN"/"nan"/"null"/"None". -/
theorem C8_blank_raw_written_as_empty (ws : Sheet) (rest : List Sheet)
    (mapping : List MappingEntry) (raw : RawTable)
    (hh : (headerEntries ws).isEmpty = false)
    (hnd : ((resolvePairs (headerEntries ws) raw.cols mapping).1.map Prod.snd).Nodup) :
    fill ⟨ws :: rest⟩ mapping raw
      = .ok (⟨fillSheet ws mapping raw :: rest⟩,
             (resolvePairs (headerEntries ws) raw.cols mapping).2.1,
             (resolvePairs (headerEntries ws) raw.cols mapping).2.2)
    ∧ (∀ (j : Nat) (hj : j < raw.rows.length) (rc : String) (ci : Nat),
        (rc, ci) ∈ (resolvePairs (headerEntries ws) raw.cols mapping).1 →
        isna (rowGet (raw.rows.get ⟨j, hj⟩) rc) = true →
        (fillSheet ws mapping raw).cells (3 + j, ci) = .vStr ""
        ∧ (fillSheet ws mapping raw).cells (3 + j, ci) ≠ .vStr "NaN"
        ∧ (fillSheet ws mapping raw).cells (3 + j, ci) ≠ .vStr "nan"
        ∧ (fillSheet ws mapping raw).cells (3 + j, ci) ≠ .vStr "null"
        ∧ (fillSheet ws mapping raw).cells (3 + j, ci) ≠ .vStr "None") := by
  have hfs : (fillSheet ws mapping raw).cells
      = (writeRows ws (resolvePairs (headerEntries ws) raw.cols mapping).1
          0 raw.rows).cells := by
    simp only [fillSheet]
    exact highlight_cells _ _ _ _
  refine ⟨by simp [fill, hh], ?_⟩
  intro j hj rc ci hm hisna
  have hcell : (fillSheet ws mapping raw).cells (3 + j, ci) = .vStr "" := by
    rw [hfs]
    have h2 := writeRows_cells_get raw.rows ws _ 0 j hj rc ci hnd hm
    rw [show writeVal (rowGet (raw.rows.get ⟨j, hj⟩) rc) = .vStr "" from
      by unfold writeVal; rw [hisna]; simp] at h2
    simpa using h2
  refine ⟨hcell, ?_, ?_, ?_, ?_⟩ <;> (rw [hcell]; decide)

/-- Witness for C8: the second raw row's `name` is NaN; the Title cell of
output row 4 — which previously held "OLD" — ends up as the empty string,
not a NaN rendering. -/
theorem C8_blank_raw_written_as_empty_witness :
    ((headerEntries exTemplate).isEmpty = false
      ∧ ((resolvePairs (headerEntries exTemplate) exRaw.cols exMapping).1.map
          Prod.snd).Nodup
      ∧ isna (rowGet (exRaw.rows.get ⟨1, by decide⟩) "name") = true
      ∧ exTemplate.cells (4, 2) = .vStr "OLD")
    ∧ (fillSheet exTemplate exMapping exRaw).cells (3 + 1, 2) = .vStr ""
    ∧ (fillSheet exTemplate exMapping exRaw).cells (3 + 1, 2) ≠ .vStr "NaN" :=
  ⟨⟨by decide, by decide, by decide, by decide⟩,
   ((C8_blank_raw_written_as_empty exTemplate [] exMapping exRaw (by decide)
      (by decide)).2 1 (by decide) "name" 2 (by decide) (by decide)).1,
   ((C8_blank_raw_written_as_empty exTemplate [] exMapping exRaw (by decide)
      (by decide)).2 1 (by decide) "name" 2 (by decide) (by decide)).2.1⟩

/-- C9: the duplicate-highlight pass is idempotent — a second run over the
sheet it produced computes exactly the same set of marked cells, and the
resulting fills are unchanged — and a cell is marked iff its column is one
a label resolves to, it lies between the start row and the last populated
row, and its non-empty stripped value's case-insensitive key occurs more
than once in that column range; cells with no key (empty or
whitespace-only) are never marked. -/
theorem C9_highlight_idempotent (s : Sheet) (hidx : List (String × Nat))
    (labels : List String) (sr : Nat) :
    marksOf (_highlight_duplicates s hidx sr labels) hidx sr labels
      = marksOf s hidx sr labels
    ∧ (∀ p : Nat × Nat,
        (_highlight_duplicates (_highlight_duplicates s hidx sr labels)
            hidx sr labels).fills p
          = (_highlight_duplicates s hidx sr labels).fills p)
    ∧ (∀ r c : Nat, (r, c) ∈ marksOf s hidx sr labels ↔
        ∃ lbl, lbl ∈ labels ∧ hdrGet hidx (_norm_key lbl) = some c ∧ c ≠ 0
          ∧ sr ≤ r ∧ r ≤ effMaxRow s sr
          ∧ ∃ k, cellKey (s.cells (r, c)) = some k
              ∧ 1 < (colKeys s c sr (effMaxRow s sr)).count k)
    ∧ (∀ r c : Nat, cellKey (s.cells (r, c)) = none →
        (r, c) ∉ marksOf s hidx sr labels) := by
  have hmeq : marksOf (_highlight_duplicates s hidx sr labels) hidx sr labels
      = marksOf s hidx sr labels :=
    marksOf_congr labels _ s hidx sr (highlight_cells labels s hidx sr)
      (highlight_maxRow labels s hidx sr)
  have hchar : ∀ r c : Nat, (r, c) ∈ marksOf s hidx sr labels ↔
      ∃ lbl, lbl ∈ labels ∧ hdrGet hidx (_norm_key lbl) = some c ∧ c ≠ 0
        ∧ sr ≤ r ∧ r ≤ effMaxRow s sr
        ∧ ∃ k, cellKey (s.cells (r, c)) = some k
            ∧ 1 < (colKeys s c sr (effMaxRow s sr)).count k := by
    intro r c
    rw [mem_marksOf]
    constructor
    · rintro ⟨lbl, hl, hp⟩
      obtain ⟨col, hcol, hc0, hcm⟩ := mem_stepMarks.mp hp
      obtain ⟨hceq, hsr, hmr, k, hk, hcnt⟩ := mem_colMarks.mp hcm
      subst hceq
      exact ⟨lbl, hl, hcol, hc0, hsr, hmr, k, hk, hcnt⟩
    · rintro ⟨lbl, hl, hcol, hc0, hsr, hmr, k, hk, hcnt⟩
      exact ⟨lbl, hl, mem_stepMarks.mpr
        ⟨c, hcol, hc0, mem_colMarks.mpr ⟨rfl, hsr, hmr, k, hk, hcnt⟩⟩⟩
  refine ⟨hmeq, ?_, hchar, ?_⟩
  · intro p
    rw [highlight_fills labels (_highlight_duplicates s hidx sr labels)
        hidx sr p, hmeq, highlight_fills labels s hidx sr p,
      ← Bool.or_assoc, Bool.or_self]
  · intro r c hnone hmem
    obtain ⟨_, _, _, _, _, _, k, hk, _⟩ := (hchar r c).mp hmem
    rw [hnone] at hk
    exact Option.noConfusion hk

/-- C10: duplicate detection compares cells by their trimmed, uppercased
string rendering, so the integer 123 and the text "123" — different types,
same rendering — count as duplicates of each other and both cells get the
highlight fill. -/
theorem C10_duplicates_compare_string_rendering :
    exMixed.cells (3, 1) = Value.vInt 123
    ∧ exMixed.cells (4, 1) = Value.vStr "123"
    ∧ cellKey (Value.vInt 123) = some "123"
    ∧ cellKey (Value.vStr "123") = some "123"
    ∧ (3, 1) ∈ marksOf exMixed (headerEntries exMixed) 3 highlightLabels
    ∧ (4, 1) ∈ marksOf exMixed (headerEntries exMixed) 3 highlightLabels
    ∧ (_highlight_duplicates exMixed (headerEntries exMixed) 3
        highlightLabels).fills (3, 1) = true
    ∧ (_highlight_duplicates exMixed (headerEntries exMixed) 3
        highlightLabels).fills (4, 1) = true := by
  exact ⟨rfl, rfl, by decide, by decide, by decide, by decide, by decide,
    by decide⟩

end Masterfile
